import Mathlib

/-!
Verification of the zstd-chunked reading library core (src/lib.rs, src/format.rs).

Byte slices are modelled as `List Nat` (each element a byte value), strings as
Lean `String` except where the source splits text character by character, in
which case we work on `List Char` with structurally recursive splitters so that
everything evaluates by kernel reduction.  Machine `u64` arithmetic that can
overflow in the source is made explicit with `% 2 ^ 64`.
-/

namespace ZstdChunked

/-- Little-endian value of a byte list, as computed by zerocopy's `U32`/`U64`
accessors on the packed footer struct. -/
def leVal (bs : List Nat) : Nat := bs.foldr (fun b acc => b + 256 * acc) 0

/-- Modulus of 64-bit unsigned arithmetic. -/
def U64MOD : Nat := 2 ^ 64

/-- Rust `u64` addition as performed by `start + length` in the source: release
builds wrap modulo `2 ^ 64` (debug builds would panic on overflow). -/
def u64add (a b : Nat) : Nat := (a + b) % U64MOD

/-- Rust `core::ops::Range<u64>`: the half-open range `start .. stop`
(`stop` is named `end` in Rust, a Lean keyword). -/
structure FileRange where
  start : Nat
  stop : Nat
deriving DecidableEq, Repr

/-- The packed `FooterReference` struct of src/format.rs: three little-endian
`u64` fields. -/
structure FooterReference where
  offset : Nat
  length_compressed : Nat
  length_uncompressed : Nat
deriving DecidableEq, Repr

/-- The packed `Footer` struct of src/format.rs: 4-byte magic, `U32` size,
manifest reference (24 bytes), `U64` manifest type, tarsplit reference
(24 bytes) and 8-byte trailing magic -- 72 bytes in total. -/
structure Footer where
  skippable_magic : List Nat
  skippable_size : Nat
  manifest : FooterReference
  manifest_type : Nat
  tarsplit : FooterReference
  zstd_chunked_magic : List Nat
deriving DecidableEq, Repr

/-- Constant `ZSTD_SKIPPABLE_MAGIC` of src/format.rs. -/
def ZSTD_SKIPPABLE_MAGIC : List Nat := [0x50, 0x2a, 0x4d, 0x18]

/-- Constant `ZSTD_CHUNKED_FOOTER_SIZE` of src/format.rs (note: 64, the
54-byte figure of the spec appears nowhere in the source). -/
def ZSTD_CHUNKED_FOOTER_SIZE : Nat := 64

/-- Constant `ZSTD_CHUNKED_MANIFEST_TYPE` of src/format.rs. -/
def ZSTD_CHUNKED_MANIFEST_TYPE : Nat := 1

/-- Constant `ZSTD_CHUNKED_MAGIC` of src/format.rs: the bytes of "GNUlInUx". -/
def ZSTD_CHUNKED_MAGIC : List Nat := [71, 78, 85, 108, 73, 110, 85, 120]

/-- Byte width of the packed `Footer` struct: 4 + 4 + 24 + 8 + 24 + 8 = 72. -/
def FOOTER_BYTES : Nat := 72

/-- Field-by-field little-endian decoding of a 72-byte footer window, as
zerocopy's `ref_from_suffix` reinterprets the trailing bytes. -/
def decodeFooter (t : List Nat) : Footer where
  skippable_magic := t.take 4
  skippable_size := leVal ((t.drop 4).take 4)
  manifest :=
    ⟨leVal ((t.drop 8).take 8), leVal ((t.drop 16).take 8), leVal ((t.drop 24).take 8)⟩
  manifest_type := leVal ((t.drop 32).take 8)
  tarsplit :=
    ⟨leVal ((t.drop 40).take 8), leVal ((t.drop 48).take 8), leVal ((t.drop 56).take 8)⟩
  zstd_chunked_magic := (t.drop 64).take 8

/-- The `Footer::valid` check of src/format.rs. -/
def Footer.valid (f : Footer) : Bool :=
  f.skippable_magic == ZSTD_SKIPPABLE_MAGIC
    && f.skippable_size == ZSTD_CHUNKED_FOOTER_SIZE
    && f.manifest_type == ZSTD_CHUNKED_MANIFEST_TYPE
    && f.zstd_chunked_magic == ZSTD_CHUNKED_MAGIC

/-- Zerocopy's `Self::ref_from_suffix(data)`: the trailing 72-byte window of
`data`, or failure when `data` is shorter than the struct. -/
def Footer.ref_from_suffix (data : List Nat) : Option (List Nat) :=
  if FOOTER_BYTES ≤ data.length then some (data.drop (data.length - FOOTER_BYTES)) else none

/-- The `Footer::from_suffix` function of src/format.rs. -/
def Footer.from_suffix (data : List Nat) : Option Footer :=
  match Footer.ref_from_suffix data with
  | none => none
  | some t =>
    let footer := decodeFooter t
    if footer.valid then some footer else none

/-- The `MetadataReference` struct of src/lib.rs. -/
structure MetadataReference where
  range : FileRange
  digest : Option String
  uncompressed_size : Nat
deriving DecidableEq, Repr

/-- The `MetadataReference::from_footer` function of src/lib.rs.  The source
computes `start + value.length_compressed.get()` with unchecked `u64`
addition, hence the wrapping `u64add`. -/
def MetadataReference.from_footer (value : FooterReference) : MetadataReference where
  range := ⟨value.offset, u64add value.offset value.length_compressed⟩
  digest := none
  uncompressed_size := value.length_uncompressed

/-- The `MetadataReferences` struct of src/lib.rs. -/
structure MetadataReferences where
  manifest : MetadataReference
  tarsplit : MetadataReference
deriving DecidableEq, Repr

/-- The `MetadataReferences::from_footer` function of src/lib.rs. -/
def MetadataReferences.from_footer (suffix : List Nat) : Option MetadataReferences :=
  match Footer.from_suffix suffix with
  | none => none
  | some footer =>
    some ⟨MetadataReference.from_footer footer.manifest,
          MetadataReference.from_footer footer.tarsplit⟩

/-- A 72-byte blob that `Footer::from_suffix` accepts: valid magics, skippable
size 64, zero manifest and tarsplit references, manifest type 1. -/
def validFooter72 : List Nat :=
  [0x50, 0x2a, 0x4d, 0x18, 64, 0, 0, 0]
    ++ List.replicate 24 0
    ++ [1, 0, 0, 0, 0, 0, 0, 0]
    ++ List.replicate 24 0
    ++ [71, 78, 85, 108, 73, 110, 85, 120]

/-- C1 counterexample: the footer accepted by the code is 72 bytes long and has
`skippable_size = 64`, not 56; so a slice whose size field is not 56 can still
parse, contrary to the claim. -/
theorem footer_size_counterexample :
    validFooter72.length = 72
      ∧ Footer.from_suffix validFooter72 = some (decodeFooter validFooter72)
      ∧ (decodeFooter validFooter72).skippable_size = 64
      ∧ (decodeFooter validFooter72).skippable_size ≠ 56 := by
  refine ⟨by decide, by decide, by decide, by decide⟩

/-- C1 (amended): `Footer::from_suffix s` succeeds exactly when `s` is at least
72 bytes long and the trailing 72 bytes carry skippable magic `50 2A 4D 18`,
skippable size 64, manifest type 1 and trailing magic "GNUlInUx";
`MetadataReferences::from_footer` succeeds exactly when the footer parses, and
the parsed footer is the little-endian decoding of the trailing 72 bytes. -/
theorem from_suffix_spec (s : List Nat) :
    ((Footer.from_suffix s).isSome = true ↔
      (FOOTER_BYTES ≤ s.length
        ∧ (s.drop (s.length - 72)).take 4 = ZSTD_SKIPPABLE_MAGIC
        ∧ leVal (((s.drop (s.length - 72)).drop 4).take 4) = 64
        ∧ leVal (((s.drop (s.length - 72)).drop 32).take 8) = 1
        ∧ ((s.drop (s.length - 72)).drop 64).take 8 = ZSTD_CHUNKED_MAGIC))
    ∧ ((MetadataReferences.from_footer s).isSome = (Footer.from_suffix s).isSome)
    ∧ (∀ f, Footer.from_suffix s = some f → f = decodeFooter (s.drop (s.length - 72))) := by
  refine ⟨?_, ?_, ?_⟩
  · unfold Footer.from_suffix Footer.ref_from_suffix
    by_cases h : FOOTER_BYTES ≤ s.length
    · simp only [h, if_true]
      have hiff : ∀ f : Footer, ((if f.valid then some f else none).isSome = true ↔ f.valid = true) := by
        intro f; cases hv : f.valid <;> simp [hv]
      rw [hiff]
      unfold Footer.valid decodeFooter
      simp only [Bool.and_eq_true, beq_iff_eq, ZSTD_CHUNKED_FOOTER_SIZE,
        ZSTD_CHUNKED_MANIFEST_TYPE, FOOTER_BYTES]
      constructor
      · rintro ⟨⟨⟨h1, h2⟩, h3⟩, h4⟩
        exact ⟨trivial, h1, h2, h3, h4⟩
      · rintro ⟨-, h1, h2, h3, h4⟩
        exact ⟨⟨⟨h1, h2⟩, h3⟩, h4⟩
    · simp [h]
  · unfold MetadataReferences.from_footer
    cases Footer.from_suffix s <;> rfl
  · intro f hf
    unfold Footer.from_suffix Footer.ref_from_suffix at hf
    by_cases h : FOOTER_BYTES ≤ s.length
    · simp only [h, if_true] at hf
      split at hf
      · simp only [Option.some.injEq] at hf
        simpa [FOOTER_BYTES] using hf.symm
      · simp at hf
    · simp [h] at hf

/-- C1 witness: the amended characterization applied to the concrete valid
72-byte footer blob. -/
theorem from_suffix_spec_witness :
    (Footer.from_suffix validFooter72).isSome = true
      ∧ decodeFooter validFooter72
          = decodeFooter (validFooter72.drop (validFooter72.length - 72)) :=
  ⟨(from_suffix_spec validFooter72).1.mpr
      ⟨by decide, by decide, by decide, by decide, by decide⟩,
    (from_suffix_spec validFooter72).2.2 (decodeFooter validFooter72) (by decide)⟩

/-- Rust `str::split(':')` on the characters of a string: splits at every
colon, keeping empty segments (so the empty string yields one empty segment). -/
def splitColon : List Char → List (List Char)
  | [] => [[]]
  | ':' :: rest => [] :: splitColon rest
  | c :: rest =>
    match splitColon rest with
    | [] => [[c]]
    | l :: ls => (c :: l) :: ls

/-- Rust `u64::from_str` applied to one token: an optional leading plus sign,
then one or more decimal digits, value below `2 ^ 64`; anything else fails. -/
def parseU64 (cs : List Char) : Option Nat :=
  let ds := match cs with
    | '+' :: rest => rest
    | _ => cs
  if ds.isEmpty then none
  else if ds.all (fun c => c.isDigit) then
    let v := ds.foldl (fun a c => a * 10 + (c.toNat - 48)) 0
    if v < U64MOD then some v else none
  else none

/-- The `to_vec_u64` function of src/lib.rs: split the value on colons and
parse every token as `u64`, failing when any token fails. -/
def to_vec_u64 (value : String) : Option (List Nat) :=
  (splitColon value.toList).mapM parseU64

/-- Annotation key for the manifest checksum. -/
def MANIFEST_CHECKSUM_KEY : String := "io.github.containers.zstd-chunked.manifest-checksum"

/-- Annotation key for the manifest position. -/
def MANIFEST_POSITION_KEY : String := "io.github.containers.zstd-chunked.manifest-position"

/-- Annotation key for the tarsplit checksum. -/
def TARSPLIT_CHECKSUM_KEY : String := "io.github.containers.zstd-chunked.tarsplit-checksum"

/-- Annotation key for the tarsplit position. -/
def TARSPLIT_POSITION_KEY : String := "io.github.containers.zstd-chunked.tarsplit-position"

/-- The `MetadataReferences::from_oci` function of src/lib.rs.  The ranges are
built with the source's unchecked `u64` addition `start + length`, modelled by
the wrapping `u64add`. -/
def MetadataReferences.from_oci (get : String → Option String) : Option MetadataReferences :=
  let manifest_digest := get MANIFEST_CHECKSUM_KEY
  match get MANIFEST_POSITION_KEY with
  | none => none
  | some manifest_position =>
    let tarsplit_digest := get TARSPLIT_CHECKSUM_KEY
    match get TARSPLIT_POSITION_KEY with
    | none => none
    | some tarsplit_position =>
      match to_vec_u64 manifest_position with
      | some [start, length, uncompressed_size, 1] =>
        match to_vec_u64 tarsplit_position with
        | some [start2, length2, uncompressed2] =>
          some ⟨⟨⟨start, u64add start length⟩, manifest_digest, uncompressed_size⟩,
                ⟨⟨start2, u64add start2 length2⟩, tarsplit_digest, uncompressed2⟩⟩
        | _ => none
      | _ => none

/-- A getter whose manifest position makes `start + length` overflow `u64`. -/
def gOverflow : String → Option String := fun k =>
  if k = MANIFEST_POSITION_KEY then some "18446744073709551615:1:0:1"
  else if k = TARSPLIT_POSITION_KEY then some "0:0:0"
  else none

/-- C2: at the overflowing input `start = 2^64 - 1`, `length = 1`, the code
does not return None: the unchecked `u64` addition wraps (in a release build;
a debug build panics), producing the nonsensical range with end 0.  The same
unchecked addition sits in `MetadataReference::from_footer`. -/
theorem from_oci_overflow_wraps :
    MetadataReferences.from_oci gOverflow
      = some ⟨⟨⟨18446744073709551615, 0⟩, none, 0⟩, ⟨⟨0, 0⟩, none, 0⟩⟩
    ∧ (MetadataReference.from_footer ⟨18446744073709551615, 1, 5⟩).range
        = ⟨18446744073709551615, 0⟩ := by
  constructor
  · decide
  · decide

/-- C3: `from_oci` succeeds exactly when both position annotations are present,
the manifest one parses as exactly four colon-separated `u64` tokens whose last
is 1, and the tarsplit one as exactly three; on success the ranges are
`start .. start + length` (with the source's wrapping addition, which is plain
addition whenever it does not overflow) and the checksum annotations are
carried through verbatim as the digests. -/
theorem from_oci_spec (get : String → Option String) :
    ((MetadataReferences.from_oci get).isSome = true ↔
      ∃ mp tp a b c d e f,
        get MANIFEST_POSITION_KEY = some mp ∧ to_vec_u64 mp = some [a, b, c, 1]
          ∧ get TARSPLIT_POSITION_KEY = some tp ∧ to_vec_u64 tp = some [d, e, f])
    ∧ (∀ r mp tp a b c d e f,
        MetadataReferences.from_oci get = some r →
        get MANIFEST_POSITION_KEY = some mp → to_vec_u64 mp = some [a, b, c, 1] →
        get TARSPLIT_POSITION_KEY = some tp → to_vec_u64 tp = some [d, e, f] →
        r.manifest = ⟨⟨a, u64add a b⟩, get MANIFEST_CHECKSUM_KEY, c⟩
          ∧ r.tarsplit = ⟨⟨d, u64add d e⟩, get TARSPLIT_CHECKSUM_KEY, f⟩)
    ∧ (∀ a b : Nat, a + b < U64MOD → u64add a b = a + b) := by
  refine ⟨?_, ?_, ?_⟩
  · unfold MetadataReferences.from_oci
    cases hmp : get MANIFEST_POSITION_KEY with
    | none => simp [hmp]
    | some mp =>
      cases htp : get TARSPLIT_POSITION_KEY with
      | none => simp [hmp, htp]
      | some tp =>
        simp only
        constructor
        · intro hsome
          split at hsome
          next a b c hmv =>
            split at hsome
            next d e f htv =>
              exact ⟨mp, tp, a, b, c, d, e, f, rfl, hmv, rfl, htv⟩
            next => simp at hsome
          next => simp at hsome
        · rintro ⟨mp2, tp2, a, b, c, d, e, f, hmp2, hmv, htp2, htv⟩
          cases hmp2
          cases htp2
          simp [hmv, htv]
  · intro r mp tp a b c d e f hr hmp hmv htp htv
    unfold MetadataReferences.from_oci at hr
    rw [hmp, htp] at hr
    simp only [hmv, htv] at hr
    cases hr
    exact ⟨rfl, rfl⟩
  · intro a b hab
    exact Nat.mod_eq_of_lt hab

/-- A getter with well-formed position and checksum annotations. -/
def gC3 : String → Option String := fun k =>
  if k = MANIFEST_POSITION_KEY then some "10:20:30:1"
  else if k = TARSPLIT_POSITION_KEY then some "40:50:60"
  else if k = MANIFEST_CHECKSUM_KEY then some "sha256:aa"
  else if k = TARSPLIT_CHECKSUM_KEY then some "sha256:bb"
  else none

/-- Result of `from_oci` on `gC3`. -/
def rC3 : MetadataReferences :=
  ⟨⟨⟨10, 30⟩, some "sha256:aa", 30⟩, ⟨⟨40, 90⟩, some "sha256:bb", 60⟩⟩

/-- C3 witness: the characterization applied at the concrete getter `gC3`. -/
theorem from_oci_spec_witness :
    (MetadataReferences.from_oci gC3).isSome = true
      ∧ (rC3.manifest = ⟨⟨10, u64add 10 20⟩, gC3 MANIFEST_CHECKSUM_KEY, 30⟩
          ∧ rC3.tarsplit = ⟨⟨40, u64add 40 50⟩, gC3 TARSPLIT_CHECKSUM_KEY, 60⟩)
      ∧ u64add 10 20 = 10 + 20 :=
  ⟨(from_oci_spec gC3).1.mpr
      ⟨"10:20:30:1", "40:50:60", 10, 20, 30, 40, 50, 60,
        by decide, by decide, by decide, by decide⟩,
    (from_oci_spec gC3).2.1 rC3 "10:20:30:1" "40:50:60" 10 20 30 40 50 60
      (by decide) (by decide) (by decide) (by decide) (by decide),
    (from_oci_spec gC3).2.2 10 20 (by decide)⟩

/-- The `ContentReference` struct of src/lib.rs. -/
structure ContentReference where
  range : FileRange
  digest : String
  size : Nat
deriving DecidableEq, Repr

/-- The `Chunk` enum of src/lib.rs. -/
inductive Chunk where
  | Inline (data : List Nat)
  | External (refs : List ContentReference)
deriving DecidableEq, Repr

/-- The `Stream` struct of src/lib.rs. -/
structure Stream where
  chunks : List Chunk
deriving DecidableEq, Repr

/-- The `ManifestEntry` struct of src/format.rs (the wire key of `end_offset`
is "endOffset"). -/
structure ManifestEntry where
  name : String
  size : Option Nat
  digest : Option String
  offset : Option Nat
  end_offset : Option Nat
deriving DecidableEq, Repr

/-- The `Manifest` struct of src/format.rs. -/
structure Manifest where
  version : Nat
  entries : List ManifestEntry
deriving DecidableEq, Repr

/-- Functional model of a `HashMap` insertion: later insertions with the same
key overwrite earlier ones. -/
def insertTable (m : String → Option ContentReference) (k : String) (v : ContentReference) :
    String → Option ContentReference :=
  fun n => if n = k then some v else m n

/-- The `filter_map` closure of `Stream::new_from_frames`: an entry is kept
exactly when its `digest`, `size`, `offset` and `end_offset` are all present
(the `?` operators), and maps to the pair of its name and the
`ContentReference` with that digest, that size, and range
`offset .. end_offset`. -/
def keepEntry (e : ManifestEntry) : Option (String × ContentReference) :=
  match e.digest, e.size, e.offset, e.end_offset with
  | some d, some sz, some o, some eo => some (e.name, ⟨⟨o, eo⟩, d, sz⟩)
  | _, _, _, _ => none

/-- The `manifest_entries` table built in `Stream::new_from_frames`:
`entries.into_iter().filter_map(..).collect::<HashMap<_, _>>()`, the collect
being a left fold of insertions, so later entries overwrite earlier ones with
the same name. -/
def manifest_entries (entries : List ManifestEntry) : String → Option ContentReference :=
  (entries.filterMap keepEntry).foldl (fun m p => insertTable m p.1 p.2) (fun _ => none)

/-- The `TarSplitEntry` struct of src/format.rs, after deserialization: the
payload has already been base64-decoded by `deserialize_option_base64`. -/
structure TarSplitEntry where
  name : Option String
  size : Option Nat
  payload : Option (List Nat)
deriving DecidableEq, Repr

/-- A tarsplit JSON record as it sits on the wire, before the payload field is
base64-decoded: the three recognized fields extracted from the JSON object
(absent fields default to none, unknown fields are ignored by serde). -/
structure RawTarSplitEntry where
  name : Option String
  size : Option Nat
  payload : Option String
deriving DecidableEq, Repr

/-- Value of one character of the standard base64 alphabet used by the
`base64::engine::general_purpose::STANDARD` engine. -/
def b64val (c : Char) : Option Nat :=
  let n := c.toNat
  if 65 ≤ n ∧ n ≤ 90 then some (n - 65)
  else if 97 ≤ n ∧ n ≤ 122 then some (n - 71)
  else if 48 ≤ n ∧ n ≤ 57 then some (n + 4)
  else if c = '+' then some 62
  else if c = '/' then some 63
  else none

/-- Block decoding for the STANDARD base64 engine: four symbols at a time,
padding only in the final block, canonical (zero) trailing bits required. -/
def b64decodeBlocks : List Char → Option (List Nat)
  | [] => some []
  | c1 :: c2 :: c3 :: c4 :: rest =>
    match b64val c1, b64val c2 with
    | some v1, some v2 =>
      if rest.isEmpty ∧ c3 = '=' ∧ c4 = '=' then
        if v2 % 16 = 0 then some [v1 * 4 + v2 / 16] else none
      else if rest.isEmpty ∧ c4 = '=' then
        match b64val c3 with
        | some v3 =>
          if v3 % 4 = 0 then some [v1 * 4 + v2 / 16, v2 % 16 * 16 + v3 / 4] else none
        | none => none
      else
        match b64val c3, b64val c4, b64decodeBlocks rest with
        | some v3, some v4, some bs =>
          some ([v1 * 4 + v2 / 16, v2 % 16 * 16 + v3 / 4, v3 % 4 * 64 + v4] ++ bs)
        | _, _, _ => none
    | _, _ => none
  | _ => none

/-- The `b64.decode` call of src/format.rs (base64 crate, STANDARD engine):
canonical padding is required, so the length must be a multiple of four. -/
def b64decode (s : String) : Option (List Nat) :=
  if s.toList.length % 4 = 0 then b64decodeBlocks s.toList else none

/-- Error message standing for the base64 crate's decode error, surfaced
through `serde::de::Error::custom` in `deserialize_option_base64`. -/
def B64_ERROR : String := "Invalid base64 payload"

/-- The `deserialize_option_base64` function of src/format.rs: an absent
payload stays absent, a present payload must base64-decode or the whole record
fails to deserialize. -/
def deserialize_option_base64 (o : Option String) : Except String (Option (List Nat)) :=
  match o with
  | none => Except.ok none
  | some s =>
    match b64decode s with
    | some bs => Except.ok (some bs)
    | none => Except.error B64_ERROR

/-- Deserialization of one tarsplit JSON record (serde): the payload field is
base64-decoded during deserialization; its failure fails the record. -/
def tarSplitEntryFromRaw (r : RawTarSplitEntry) : Except String TarSplitEntry :=
  match deserialize_option_base64 r.payload with
  | Except.error e => Except.error e
  | Except.ok p => Except.ok ⟨r.name, r.size, p⟩

/-- The cross-reference error message of src/lib.rs,
`format!("Filename {name} in zstd:chunked tarsplit missing from manifest")`. -/
def missingMsg (name : String) : String :=
  "Filename " ++ name ++ " in zstd:chunked tarsplit missing from manifest"

/-- The match on a deserialized tarsplit record inside the loop of
`Stream::new_from_frames`: the named arm fires when `name` and `size` are both
present (payload ignored), the inline arm when a payload is present, and any
other record is skipped. -/
def processEntry (table : String → Option ContentReference) (e : TarSplitEntry) :
    Except String (Option Chunk) :=
  match e with
  | ⟨some name, some size, _⟩ =>
    match table name with
    | none => Except.error (missingMsg name)
    | some reference =>
      if size = reference.size then Except.ok (some (Chunk.External [reference]))
      else Except.error "size mismatch"
  | ⟨_, _, some payload⟩ => Except.ok (some (Chunk.Inline payload))
  | _ => Except.ok none

/-- Deserialize one raw record and run the loop body on it. -/
def processRaw (table : String → Option ContentReference) (r : RawTarSplitEntry) :
    Except String (Option Chunk) :=
  match tarSplitEntryFromRaw r with
  | Except.error e => Except.error e
  | Except.ok e => processEntry table e

/-- Parse one line and run the loop body on it (`serde_json::from_str` then the
match), as the loop of `Stream::new_from_frames` does per line. -/
def lineStep {α : Type} (parse : α → Except String RawTarSplitEntry)
    (table : String → Option ContentReference) (l : α) : Except String (Option Chunk) :=
  match parse l with
  | Except.error e => Except.error e
  | Except.ok r => processRaw table r

/-- The loop of `Stream::new_from_frames` over the tarsplit lines: each line is
parsed and processed in order, the first error aborting the loop; produced
chunks are collected in order. -/
def buildChunksFrom {α : Type} (parse : α → Except String RawTarSplitEntry)
    (table : String → Option ContentReference) : List α → Except String (List Chunk)
  | [] => Except.ok []
  | l :: ls =>
    match lineStep parse table l with
    | Except.error e => Except.error e
    | Except.ok oc =>
      match buildChunksFrom parse table ls with
      | Except.error e => Except.error e
      | Except.ok cs =>
        Except.ok (match oc with | some c => c :: cs | none => cs)

/-- The chunk a successfully processed line contributes, if any. -/
def lineChunk {α : Type} (parse : α → Except String RawTarSplitEntry)
    (table : String → Option ContentReference) (l : α) : Option Chunk :=
  match lineStep parse table l with
  | Except.error _ => none
  | Except.ok oc => oc

/-- The version-mismatch message of src/lib.rs. -/
def VERSION_ERROR : String := "Incorrect zstd:chunked CRFS manifest version"

/-- The core of `Stream::new_from_frames` after the two blobs have been
zstd-decompressed and the manifest JSON has been parsed, over the already
line-split and JSON-parsed tarsplit records: check the version, build the
name table, then fold the records into chunks. -/
def new_from_frames (manifest : Manifest) (tarsplit : List RawTarSplitEntry) :
    Except String Stream :=
  if manifest.version = 1 then
    match buildChunksFrom Except.ok (manifest_entries manifest.entries) tarsplit with
    | Except.error e => Except.error e
    | Except.ok cs => Except.ok ⟨cs⟩
  else Except.error VERSION_ERROR

/-- Splitting at every newline character, keeping empty segments (the
`split_inclusive` scaffolding under Rust `str::lines()`). -/
def splitNl : List Char → List (List Char)
  | [] => [[]]
  | '\n' :: rest => [] :: splitNl rest
  | c :: rest =>
    match splitNl rest with
    | [] => [[c]]
    | l :: ls => (c :: l) :: ls

/-- Stripping of one trailing carriage return from a line that was terminated
by a newline, as Rust `str::lines()` does. -/
def stripCR (l : List Char) : List Char :=
  match l.getLast? with
  | some c => if c = '\r' then l.dropLast else l
  | none => l

/-- Rust `str::lines()` on a character list: split at every newline; segments
that were terminated by a newline lose one trailing carriage return; the final
segment is dropped only when it is empty (text ending in a newline).  Interior
empty lines are kept and yielded. -/
def linesOf (text : List Char) : List (List Char) :=
  let parts := splitNl text
  let front := parts.dropLast.map stripCR
  match parts.getLast? with
  | some [] => front
  | some l => front ++ [l]
  | none => front

/-- The core of `Stream::new_from_frames` one stage earlier than
`new_from_frames`: the tarsplit is the decompressed UTF-8 text, split into
lines by `str::lines()` and fed line by line to the JSON record parser
(`serde_json::from_str`, passed in as `parse` since serde is an external
dependency) and then to the loop body. -/
def new_from_frames_text (parse : List Char → Except String RawTarSplitEntry)
    (manifest : Manifest) (text : List Char) : Except String Stream :=
  if manifest.version = 1 then
    match buildChunksFrom parse (manifest_entries manifest.entries) (linesOf text) with
    | Except.error e => Except.error e
    | Except.ok cs => Except.ok ⟨cs⟩
  else Except.error VERSION_ERROR

/-- Helper: a computation whose `isOk` flag is set is an `ok`. -/
theorem isOk_exists {ε α : Type} {x : Except ε α} (h : x.isOk = true) :
    ∃ a, x = Except.ok a := by
  cases x with
  | error e => simp [Except.isOk, Except.toBool] at h
  | ok a => exact ⟨a, rfl⟩

/-- Helper: the loop aborts with the first error once all earlier lines have
been processed successfully. -/
theorem buildChunksFrom_append_error {α : Type} (parse : α → Except String RawTarSplitEntry)
    (table : String → Option ContentReference) (pre : List α) (l : α) (post : List α)
    (e : String)
    (hpre : ∀ x ∈ pre, (lineStep parse table x).isOk = true)
    (hl : lineStep parse table l = Except.error e) :
    buildChunksFrom parse table (pre ++ l :: post) = Except.error e := by
  induction pre with
  | nil => simp [buildChunksFrom, hl]
  | cons x xs ih =>
    obtain ⟨oc, hoc⟩ := isOk_exists (hpre x (by simp))
    have ih2 := ih (fun y hy => hpre y (by simp [hy]))
    simp [buildChunksFrom, hoc, ih2]

/-- Helper: when every line processes successfully the loop succeeds and
collects, in order, the chunk each line contributes. -/
theorem buildChunksFrom_all_ok {α : Type} (parse : α → Except String RawTarSplitEntry)
    (table : String → Option ContentReference) (ls : List α)
    (h : ∀ l ∈ ls, (lineStep parse table l).isOk = true) :
    buildChunksFrom parse table ls = Except.ok (ls.filterMap (lineChunk parse table)) := by
  induction ls with
  | nil => simp [buildChunksFrom]
  | cons x xs ih =>
    obtain ⟨oc, hoc⟩ := isOk_exists (h x (by simp))
    have ih2 := ih (fun y hy => h y (by simp [hy]))
    cases oc with
    | none => simp [buildChunksFrom, hoc, ih2, lineChunk, List.filterMap_cons]
    | some c => simp [buildChunksFrom, hoc, ih2, lineChunk, List.filterMap_cons]

/-- C4: `new_from_frames` errors (a) with the version diagnostic when the
manifest version is not 1, (b) with the message
"Filename {name} in zstd:chunked tarsplit missing from manifest" when a named
record (name and size present, payload deserializable) is missing from the
table, and (c) with "size mismatch" when the record's size differs from the
matching entry's size -- in (b) and (c) provided the earlier records processed
without error. -/
theorem new_from_frames_errors :
    (∀ (m : Manifest) (ts : List RawTarSplitEntry), m.version ≠ 1 →
      new_from_frames m ts = Except.error VERSION_ERROR)
    ∧ (∀ (m : Manifest) (pre post : List RawTarSplitEntry) (r : RawTarSplitEntry)
        (n : String) (sz : Nat),
        m.version = 1 →
        (∀ x ∈ pre, (lineStep Except.ok (manifest_entries m.entries) x).isOk = true) →
        r.name = some n → r.size = some sz →
        (deserialize_option_base64 r.payload).isOk = true →
        manifest_entries m.entries n = none →
        new_from_frames m (pre ++ r :: post) = Except.error (missingMsg n))
    ∧ (∀ (m : Manifest) (pre post : List RawTarSplitEntry) (r : RawTarSplitEntry)
        (n : String) (sz : Nat) (cr : ContentReference),
        m.version = 1 →
        (∀ x ∈ pre, (lineStep Except.ok (manifest_entries m.entries) x).isOk = true) →
        r.name = some n → r.size = some sz →
        (deserialize_option_base64 r.payload).isOk = true →
        manifest_entries m.entries n = some cr → sz ≠ cr.size →
        new_from_frames m (pre ++ r :: post) = Except.error "size mismatch") := by
  refine ⟨?_, ?_, ?_⟩
  · intro m ts hv
    simp [new_from_frames, hv]
  · intro m pre post r n sz h1 hpre hn hs hb ht
    obtain ⟨p, hp⟩ := isOk_exists hb
    have hstep : lineStep Except.ok (manifest_entries m.entries) r
        = Except.error (missingMsg n) := by
      simp [lineStep, processRaw, tarSplitEntryFromRaw, hp, hn, hs, processEntry, ht]
    have hbc := buildChunksFrom_append_error Except.ok (manifest_entries m.entries)
      pre r post _ hpre hstep
    simp [new_from_frames, h1, hbc]
  · intro m pre post r n sz cr h1 hpre hn hs hb ht hsz
    obtain ⟨p, hp⟩ := isOk_exists hb
    have hstep : lineStep Except.ok (manifest_entries m.entries) r
        = Except.error "size mismatch" := by
      simp [lineStep, processRaw, tarSplitEntryFromRaw, hp, hn, hs, processEntry, ht, hsz]
    have hbc := buildChunksFrom_append_error Except.ok (manifest_entries m.entries)
      pre r post _ hpre hstep
    simp [new_from_frames, h1, hbc]

/-- A one-entry manifest whose entry "a" has all four optional fields. -/
def mC4 : Manifest := ⟨1, [⟨"a", some 3, some "d", some 0, some 10⟩]⟩

/-- C4 witness: the three error paths at concrete inputs. -/
theorem new_from_frames_errors_witness :
    new_from_frames ⟨2, []⟩ [] = Except.error VERSION_ERROR
      ∧ new_from_frames mC4 [⟨some "b", some 3, none⟩] = Except.error (missingMsg "b")
      ∧ new_from_frames mC4 [⟨some "a", some 4, none⟩] = Except.error "size mismatch" :=
  ⟨new_from_frames_errors.1 ⟨2, []⟩ [] (by decide),
    new_from_frames_errors.2.1 mC4 [] [] ⟨some "b", some 3, none⟩ "b" 3
      rfl (by simp) rfl rfl (by decide) (by decide),
    new_from_frames_errors.2.2 mC4 [] [] ⟨some "a", some 4, none⟩ "a" 4 ⟨⟨0, 10⟩, "d", 3⟩
      rfl (by simp) rfl rfl (by decide) (by decide) (by decide)⟩

/-- Helper: a left fold of insertions looked up at a key finds the value of
the last inserted pair with that key. -/
theorem foldl_insert_find (ps : List (String × ContentReference)) (n : String) :
    (ps.foldl (fun m p => insertTable m p.1 p.2) (fun _ => none)) n
      = ((ps.reverse.find? (fun p => p.1 == n)).map Prod.snd) := by
  induction ps using List.reverseRecOn with
  | nil => rfl
  | append_singleton ps p ih =>
    rw [List.foldl_append]
    simp only [List.foldl_cons, List.foldl_nil, List.reverse_append, List.reverse_cons,
      List.reverse_nil, List.nil_append, List.cons_append]
    by_cases h : p.1 = n
    · simp [insertTable, h, List.find?_cons_of_pos]
    · have hb : (p.1 == n) = false := by simp [h]
      have hne : n ≠ p.1 := fun hh => h hh.symm
      simp [insertTable, hne, List.find?_cons_of_neg, hb, ih]

/-- C5: the lookup table of `new_from_frames` holds exactly the manifest
entries kept by the filter (all four of digest, size, offset, endOffset
present, mapped verbatim through `keepEntry`), and a lookup finds the last
kept entry with that name in manifest order; everything else is absent. -/
theorem manifest_table_spec (entries : List ManifestEntry) (n : String) :
    manifest_entries entries n
      = (((entries.filterMap keepEntry).reverse.find? (fun p => p.1 == n)).map Prod.snd) :=
  foldl_insert_find (entries.filterMap keepEntry) n

/-- The empty version-1 manifest. -/
def mEmpty : Manifest := ⟨1, []⟩

/-- C6 counterexample: a record with both name and payload but no size is
handled by the inline arm, producing an `Inline` chunk -- the claim that such
a record is never treated as inline fails.  ("AQ==" is base64 for the single
byte 1.) -/
theorem named_inline_counterexample :
    new_from_frames mEmpty [⟨some "a", none, some "AQ=="⟩]
      = Except.ok ⟨[Chunk.Inline [1]]⟩ := by
  rfl

/-- C6 (amended): a record with name and size present is handled by the named
arm (External chunk or cross-reference error) whatever its payload, and a
record with a name and a payload but no size is handled by the inline arm. -/
theorem processEntry_arms (table : String → Option ContentReference) (n : String)
    (sz : Nat) (p : Option (List Nat)) (pl : List Nat) :
    processEntry table ⟨some n, some sz, p⟩
      = (match table n with
          | none => Except.error (missingMsg n)
          | some reference =>
            if sz = reference.size then Except.ok (some (Chunk.External [reference]))
            else Except.error "size mismatch")
    ∧ processEntry table ⟨some n, none, some pl⟩ = Except.ok (some (Chunk.Inline pl)) := by
  constructor
  · cases h : table n <;> simp [processEntry, h]
  · rfl

/-- The two characters of an empty JSON object, written without brace
literals. -/
def emptyRecordLine : List Char := [Char.ofNat 123, Char.ofNat 125]

/-- Record parser modelling `serde_json::from_str::<TarSplitEntry>` on the
lines this development feeds it: an empty JSON object parses to a record with
every field absent, and the empty string fails with an EOF error (there is no
JSON value in an empty input). -/
def pfC7 : List Char → Except String RawTarSplitEntry := fun l =>
  if l = emptyRecordLine then Except.ok ⟨none, none, none⟩
  else if l = [] then Except.error "EOF while parsing a value"
  else Except.error "invalid JSON"

/-- A tarsplit text with an interior empty line between two empty records. -/
def textC7 : List Char := emptyRecordLine ++ '\n' :: '\n' :: emptyRecordLine

/-- C7 counterexample: `str::lines()` yields interior empty lines, each line is
JSON-parsed, and the empty line fails to parse, so a tarsplit whose non-empty
lines are all valid records still aborts construction -- the claim that empty
lines are skipped fails. -/
theorem empty_line_counterexample :
    (pfC7 emptyRecordLine).isOk = true
      ∧ linesOf textC7 = [emptyRecordLine, [], emptyRecordLine]
      ∧ new_from_frames_text pfC7 mEmpty textC7
          = Except.error "EOF while parsing a value" := by
  refine ⟨by decide, by decide, by rfl⟩

/-- C7 (amended): construction parses every line yielded by `str::lines()`
(which drops only a final empty segment after a trailing newline; interior
empty lines are parsed and their failure aborts construction); when every such
line parses and processes successfully, construction succeeds and the chunks
are exactly those contributed by the lines in order. -/
theorem tarsplit_lines (parse : List Char → Except String RawTarSplitEntry)
    (m : Manifest) (text : List Char)
    (h1 : m.version = 1)
    (h2 : ∀ l ∈ linesOf text, (lineStep parse (manifest_entries m.entries) l).isOk = true) :
    new_from_frames_text parse m text
      = Except.ok ⟨(linesOf text).filterMap (lineChunk parse (manifest_entries m.entries))⟩ := by
  simp [new_from_frames_text, h1,
    buildChunksFrom_all_ok parse (manifest_entries m.entries) (linesOf text) h2]

/-- C7 witness: the amended statement applied to a two-line tarsplit (with a
trailing-newline-free text and no empty interior line). -/
theorem tarsplit_lines_witness :
    new_from_frames_text pfC7 mEmpty (emptyRecordLine ++ '\n' :: emptyRecordLine)
      = Except.ok ⟨[]⟩ := by
  have h := tarsplit_lines pfC7 mEmpty (emptyRecordLine ++ '\n' :: emptyRecordLine)
    rfl (by decide)
  rw [h]
  rfl

/-- C10: a record whose payload is present but is not valid base64 fails
deserialization, and `new_from_frames` propagates that as an error (given the
earlier records processed without error) instead of skipping the record. -/
theorem invalid_base64_errors (m : Manifest) (pre post : List RawTarSplitEntry)
    (r : RawTarSplitEntry) (s : String)
    (h1 : m.version = 1)
    (hpre : ∀ x ∈ pre, (lineStep Except.ok (manifest_entries m.entries) x).isOk = true)
    (hp : r.payload = some s) (hbad : b64decode s = none) :
    new_from_frames m (pre ++ r :: post) = Except.error B64_ERROR := by
  have hstep : lineStep Except.ok (manifest_entries m.entries) r = Except.error B64_ERROR := by
    simp [lineStep, processRaw, tarSplitEntryFromRaw, deserialize_option_base64, hp, hbad]
  have hbc := buildChunksFrom_append_error Except.ok (manifest_entries m.entries)
    pre r post _ hpre hstep
  simp [new_from_frames, h1, hbc]

/-- C10 witness: a payload of four exclamation marks is not base64 and makes
construction fail. -/
theorem invalid_base64_errors_witness :
    new_from_frames mEmpty [⟨none, none, some "!!!!"⟩] = Except.error B64_ERROR :=
  invalid_base64_errors mEmpty [] [] ⟨none, none, some "!!!!"⟩ "!!!!"
    rfl (by simp) rfl (by decide)

/-- The inner loop of `Stream::write_to` over one `External` chunk: resolve
each reference in order and write the bytes to the sink, propagating the first
error from either. -/
def writeRefs {σ ε : Type} (sink : σ → List Nat → Except ε σ)
    (resolve_reference : ContentReference → Except ε (List Nat)) :
    List ContentReference → σ → Except ε σ
  | [], s => Except.ok s
  | r :: rs, s =>
    match resolve_reference r with
    | Except.error e => Except.error e
    | Except.ok bs =>
      match sink s bs with
      | Except.error e => Except.error e
      | Except.ok s2 => writeRefs sink resolve_reference rs s2

/-- The loop of `Stream::write_to` over the chunks: inline data goes straight
to the sink, external chunks go through the resolver; the sink is modelled as
a fallible state transformer (`write_all`), so the state `σ` stands for the
writer and errors from either side propagate. -/
def writeChunks {σ ε : Type} (sink : σ → List Nat → Except ε σ)
    (resolve_reference : ContentReference → Except ε (List Nat)) :
    List Chunk → σ → Except ε σ
  | [], s => Except.ok s
  | Chunk.Inline data :: rest, s =>
    match sink s data with
    | Except.error e => Except.error e
    | Except.ok s2 => writeChunks sink resolve_reference rest s2
  | Chunk.External refs :: rest, s =>
    match writeRefs sink resolve_reference refs s with
    | Except.error e => Except.error e
    | Except.ok s2 => writeChunks sink resolve_reference rest s2

/-- The `Stream::write_to` method of src/lib.rs. -/
def Stream.write_to {σ ε : Type} (st : Stream) (sink : σ → List Nat → Except ε σ)
    (resolve_reference : ContentReference → Except ε (List Nat)) (s : σ) : Except ε σ :=
  writeChunks sink resolve_reference st.chunks s

/-- The per-chunk reference list of the `flat_map` inside `Stream::references`:
an `External` chunk contributes its references, anything else contributes
nothing. -/
def chunkRefs : Chunk → List ContentReference
  | Chunk.External items => items
  | _ => []

/-- The flat map over the chunks performed by `Stream::references`. -/
def refsOfList (chunks : List Chunk) : List ContentReference :=
  chunks.flatMap chunkRefs

/-- The `Stream::references` method of src/lib.rs (the lazy iterator is
modelled as the list it enumerates). -/
def Stream.references (st : Stream) : List ContentReference :=
  refsOfList st.chunks

/-- A sink that always succeeds and appends the written bytes to its state:
the observation point for what `write_to` sends to the writer. -/
def appSink {ε : Type} : List Nat → List Nat → Except ε (List Nat) :=
  fun s bs => Except.ok (s ++ bs)

/-- Reassembly of the output bytes from the chunk plan and the list of
resolved byte blocks, consumed in order: inline chunks contribute their own
bytes, external chunks consume one block per reference. -/
def assemble : List Chunk → List (List Nat) → List Nat
  | [], _ => []
  | Chunk.Inline d :: cs, vs => d ++ assemble cs vs
  | Chunk.External rs :: cs, vs =>
    (vs.take rs.length).flatten ++ assemble cs (vs.drop rs.length)

/-- The output when every reference resolves purely via `f`. -/
def pureOutput (f : ContentReference → List Nat) : List Chunk → List Nat
  | [] => []
  | Chunk.Inline d :: cs => d ++ pureOutput f cs
  | Chunk.External rs :: cs => (rs.map f).flatten ++ pureOutput f cs

/-- Sequential fallible map: apply `f` to each element in order, stopping at
the first error -- the order in which `write_to` consults the resolver. -/
def seqMapE {ε α β : Type} (f : α → Except ε β) : List α → Except ε (List β)
  | [] => Except.ok []
  | x :: xs =>
    match f x with
    | Except.error e => Except.error e
    | Except.ok b =>
      match seqMapE f xs with
      | Except.error e => Except.error e
      | Except.ok bs => Except.ok (b :: bs)

/-- Helper: a successful sequential map produces as many results as inputs. -/
theorem seqMapE_ok_length {ε α β : Type} (f : α → Except ε β) :
    ∀ (l : List α) (vs : List β), seqMapE f l = Except.ok vs → vs.length = l.length := by
  intro l
  induction l with
  | nil =>
    intro vs h
    cases h
    rfl
  | cons x xs ih =>
    intro vs h
    simp only [seqMapE] at h
    cases hx : f x with
    | error e => rw [hx] at h; cases h
    | ok b =>
      rw [hx] at h
      cases hxs : seqMapE f xs with
      | error e => rw [hxs] at h; cases h
      | ok bs =>
        rw [hxs] at h
        cases h
        simp [ih bs hxs]

/-- Helper: a sequential map over an append runs the left part first and stops
at its first error. -/
theorem seqMapE_append {ε α β : Type} (f : α → Except ε β) (l1 l2 : List α) :
    seqMapE f (l1 ++ l2)
      = (match seqMapE f l1 with
          | Except.error e => Except.error e
          | Except.ok v1 =>
            match seqMapE f l2 with
            | Except.error e => Except.error e
            | Except.ok v2 => Except.ok (v1 ++ v2)) := by
  induction l1 with
  | nil =>
    simp only [List.nil_append, seqMapE]
    cases seqMapE f l2 <;> rfl
  | cons x xs ih =>
    cases hx : f x with
    | error e => simp [seqMapE, hx]
    | ok b =>
      cases hxs : seqMapE f xs with
      | error e => simp [seqMapE, hx, hxs, ih]
      | ok v1 =>
        cases hl2 : seqMapE f l2 with
        | error e => simp [seqMapE, hx, hxs, hl2, ih]
        | ok v2 => simp [seqMapE, hx, hxs, hl2, ih]

/-- Helper: the inner loop against the appending sink resolves the references
in order, stopping at the first error, and appends the concatenation. -/
theorem writeRefs_app {ε : Type} (resolve : ContentReference → Except ε (List Nat))
    (rs : List ContentReference) (acc : List Nat) :
    writeRefs appSink resolve rs acc
      = (match seqMapE resolve rs with
          | Except.error e => Except.error e
          | Except.ok vs => Except.ok (acc ++ vs.flatten)) := by
  induction rs generalizing acc with
  | nil => simp [writeRefs, seqMapE]
  | cons r rs ih =>
    cases hr : resolve r with
    | error e => simp [writeRefs, hr, seqMapE]
    | ok bs =>
      simp only [writeRefs, hr, appSink, seqMapE, ih]
      cases seqMapE resolve rs <;> simp [List.append_assoc]

/-- Helper: the chunk loop against the appending sink resolves exactly the
flat-mapped reference list in order, then reassembles the plan. -/
theorem writeChunks_app {ε : Type} (resolve : ContentReference → Except ε (List Nat))
    (chunks : List Chunk) (acc : List Nat) :
    writeChunks appSink resolve chunks acc
      = (match seqMapE resolve (refsOfList chunks) with
          | Except.error e => Except.error e
          | Except.ok vs => Except.ok (acc ++ assemble chunks vs)) := by
  induction chunks generalizing acc with
  | nil => simp [writeChunks, refsOfList, seqMapE, assemble]
  | cons c cs ih =>
    cases c with
    | Inline d =>
      have hrefs : refsOfList (Chunk.Inline d :: cs) = refsOfList cs := by
        simp [refsOfList, chunkRefs]
      simp only [writeChunks, appSink, ih, hrefs, assemble]
      cases seqMapE resolve (refsOfList cs) <;> simp [List.append_assoc]
    | External rs =>
      have hrefs : refsOfList (Chunk.External rs :: cs) = rs ++ refsOfList cs := by
        simp [refsOfList, chunkRefs]
      simp only [writeChunks, writeRefs_app, hrefs, seqMapE_append]
      cases hm1 : seqMapE resolve rs with
      | error e => rfl
      | ok vs1 =>
        simp only [ih, assemble]
        cases hm2 : seqMapE resolve (refsOfList cs) with
        | error e => rfl
        | ok vs2 =>
          have hlen : vs1.length = rs.length := seqMapE_ok_length resolve rs vs1 hm1
          simp [List.take_left' hlen, List.drop_left' hlen, List.append_assoc]

/-- Helper: a sequential map whose function never fails maps. -/
theorem seqMapE_pure {ε α β : Type} (f : α → β) (l : List α) :
    seqMapE (fun a => (Except.ok (f a) : Except ε β)) l = Except.ok (l.map f) := by
  induction l with
  | nil => rfl
  | cons x xs ih => simp [seqMapE, ih]

/-- Helper: reassembling the pure resolutions of the plan's own references
yields the pure output. -/
theorem assemble_map (f : ContentReference → List Nat) (chunks : List Chunk) :
    assemble chunks ((refsOfList chunks).map f) = pureOutput f chunks := by
  induction chunks with
  | nil => rfl
  | cons c cs ih =>
    cases c with
    | Inline d =>
      have hrefs : refsOfList (Chunk.Inline d :: cs) = refsOfList cs := by
        simp [refsOfList, chunkRefs]
      simp [assemble, hrefs, pureOutput, ih]
    | External rs =>
      have hrefs : refsOfList (Chunk.External rs :: cs) = rs ++ refsOfList cs := by
        simp [refsOfList, chunkRefs]
      have hlen : (rs.map f).length = rs.length := by simp
      simp [assemble, hrefs, pureOutput, ih, List.map_append,
        List.take_left' hlen, List.drop_left' hlen]

/-- C8: `write_to` writes, in plan order, the bytes of each inline chunk and
the resolved bytes of each reference of each external chunk: with the
appending sink, a resolver that always succeeds produces exactly the
concatenated plan output; an empty stream writes zero bytes; the first error
of the sink or of the resolver is propagated immediately. -/
theorem write_to_spec :
    (∀ (ε : Type) (resolve : ContentReference → Except ε (List Nat)),
      Stream.write_to ⟨[]⟩ appSink resolve [] = Except.ok [])
    ∧ (∀ (ε : Type) (st : Stream) (f : ContentReference → List Nat),
      Stream.write_to st appSink (fun r => (Except.ok (f r) : Except ε (List Nat))) []
        = Except.ok (pureOutput f st.chunks))
    ∧ (∀ (ε : Type) (st : Stream) (resolve : ContentReference → Except ε (List Nat))
        (e : ε),
      seqMapE resolve st.references = Except.error e →
      ∀ acc, Stream.write_to st appSink resolve acc = Except.error e)
    ∧ (∀ (σ ε : Type) (sink : σ → List Nat → Except ε σ)
        (resolve : ContentReference → Except ε (List Nat))
        (d : List Nat) (rest : List Chunk) (s : σ) (e : ε),
      sink s d = Except.error e →
      Stream.write_to ⟨Chunk.Inline d :: rest⟩ sink resolve s = Except.error e)
    ∧ (∀ (σ ε : Type) (sink : σ → List Nat → Except ε σ)
        (resolve : ContentReference → Except ε (List Nat))
        (r : ContentReference) (rs : List ContentReference) (rest : List Chunk)
        (s : σ) (e : ε),
      resolve r = Except.error e →
      Stream.write_to ⟨Chunk.External (r :: rs) :: rest⟩ sink resolve s
        = Except.error e) := by
  refine ⟨?_, ?_, ?_, ?_, ?_⟩
  · intro ε resolve
    rfl
  · intro ε st f
    rw [Stream.write_to, writeChunks_app, seqMapE_pure]
    simp [assemble_map]
  · intro ε st resolve e herr acc
    rw [Stream.write_to, writeChunks_app]
    rw [Stream.references] at herr
    simp [herr]
  · intro σ ε sink resolve d rest s e hsink
    simp [Stream.write_to, writeChunks, hsink]
  · intro σ ε sink resolve r rs rest s e hres
    simp [Stream.write_to, writeChunks, writeRefs, hres]

/-- A concrete two-chunk stream used by the driver witnesses. -/
def stC8 : Stream :=
  ⟨[Chunk.Inline [9, 9], Chunk.External [⟨⟨0, 5⟩, "d", 3⟩]]⟩

/-- C8 witness: the five parts of the driver specification at concrete
streams, sinks and resolvers. -/
theorem write_to_spec_witness :
    Stream.write_to ⟨[]⟩ appSink (fun _ => (Except.ok [] : Except String (List Nat))) []
        = Except.ok []
      ∧ Stream.write_to stC8 appSink
          (fun _ => (Except.ok ([1, 2, 3] : List Nat) : Except String (List Nat))) []
          = Except.ok (pureOutput (fun _ => [1, 2, 3]) stC8.chunks)
      ∧ Stream.write_to stC8 appSink
          (fun _ => (Except.error "resolver failed" : Except String (List Nat))) []
          = Except.error "resolver failed"
      ∧ Stream.write_to ⟨[Chunk.Inline [1], Chunk.Inline [2]]⟩
          (fun _ _ => (Except.error "sink failed" : Except String (List Nat)))
          (fun _ => Except.ok []) [] = Except.error "sink failed"
      ∧ Stream.write_to ⟨[Chunk.External [⟨⟨0, 5⟩, "d", 3⟩]]⟩ appSink
          (fun _ => (Except.error "resolver failed" : Except String (List Nat))) []
          = Except.error "resolver failed" :=
  ⟨write_to_spec.1 String (fun _ => Except.ok []),
    write_to_spec.2.1 String stC8 (fun _ => [1, 2, 3]),
    write_to_spec.2.2.1 String stC8 (fun _ => Except.error "resolver failed")
      "resolver failed" (by rfl) [],
    write_to_spec.2.2.2.1 (List Nat) String
      (fun _ _ => Except.error "sink failed") (fun _ => Except.ok [])
      [1] [Chunk.Inline [2]] [] "sink failed" rfl,
    write_to_spec.2.2.2.2 (List Nat) String appSink
      (fun _ => Except.error "resolver failed") ⟨⟨0, 5⟩, "d", 3⟩ [] [] []
      "resolver failed" rfl⟩

/-- C9: the resolver interaction of `write_to` is exactly a sequential map of
the resolver over `references()`: `write_to` against the appending sink equals
resolving the enumerated references in their order and multiplicity (inline
chunks contributing none, external chunks their references in order) and
splicing the results back into the plan.  In particular the resolver is
consulted on precisely the reference sequence that `references()`
enumerates. -/
theorem references_spec (ε : Type) (st : Stream)
    (resolve : ContentReference → Except ε (List Nat)) (acc : List Nat) :
    Stream.write_to st appSink resolve acc
      = (match seqMapE resolve st.references with
          | Except.error e => Except.error e
          | Except.ok vs => Except.ok (acc ++ assemble st.chunks vs)) := by
  rw [Stream.write_to, writeChunks_app, Stream.references]

end ZstdChunked
